import Mathlib

/-!
Shallow embedding of `src/sqs_completion_handler.rs` (crate `sqs-lambda`):
the `CompletionPolicy`, the `SqsCompletionHandler` buffer state, the
`mark_complete` / `ack_all` operations and the `route_message` dispatcher.

Modelling conventions:
* `Instant` timestamps are `Nat`; `Duration` is `Nat`; `now` is passed
  explicitly wherever the Rust code calls `Instant::now()`.
* Rust panics (`panic!`, `unwrap`, `expect`) are modelled by the
  `FlushResult.panicked` constructor, which records the buffer state and the
  trace of externally visible effects at the moment of the abort.
* The pluggable collaborators (serializer, event emitter, cache, SQS client)
  are passed as function arguments returning `Except`.
* Externally visible effects (emit, cache store, batch-delete request, ack
  callback invocation, completion-token signal) are recorded in an `Event`
  trace in the order the Rust code performs them.
* `Vec<u8>` dedup identities are `List Nat`; `u16` values are `Nat` with the
  `as u16` cast at the `should_flush` call site modelled as `% 65536`.
-/

namespace SqsLambda

/-- `rusoto_sqs::Message`: only the fields the handler reads. Both are
`Option<String>` in rusoto. -/
structure SqsMessage where
  message_id : Option String
  receipt_handle : Option String
deriving DecidableEq, Repr

/-- `CompletionPolicy { max_messages: u16, max_time_between_flushes: Duration,
last_flush: Instant }`. -/
structure CompletionPolicy where
  max_messages : Nat
  max_time_between_flushes : Nat
  last_flush : Nat
deriving DecidableEq, Repr

/-- `Instant::checked_duration_since`: `none` when `last` is later than
`now` (in the Rust code that `none` is `unwrap`ped, i.e. a panic). -/
def checkedDurationSince (now last : Nat) : Option Nat :=
  if last ≤ now then some (now - last) else none

/-- `CompletionPolicy::should_flush`: `cur_messages >= self.max_messages ||
Instant::now().checked_duration_since(self.last_flush).unwrap() >=
self.max_time_between_flushes`.  Rust `||` short-circuits, so the
`checked_duration_since` unwrap (modelled as `Option`) is only reached when
the count test fails; `none` models the unwrap panic. -/
def CompletionPolicy.should_flush (p : CompletionPolicy) (now : Nat)
    (cur_messages : Nat) : Option Bool :=
  if p.max_messages ≤ cur_messages then some true
  else (checkedDurationSince now p.last_flush).map
    (fun elapsed => decide (p.max_time_between_flushes ≤ elapsed))

/-- `CompletionPolicy::set_last_flush`: `self.last_flush = Instant::now()`. -/
def CompletionPolicy.set_last_flush (p : CompletionPolicy) (now : Nat) :
    CompletionPolicy :=
  { p with last_flush := now }

/-- `Completion<CE, ProcErr>` from `event_handler`: `Total`, `Partial`,
`Error` (modelled from the spec: the `event_handler` module is not under
`src/`; the spec describes exactly these three variants). -/
inductive Completion (CE ProcErr : Type) where
  | Total : CE → Completion CE ProcErr
  | Partial : CE × ProcErr → Completion CE ProcErr
  | Error : ProcErr → Completion CE ProcErr
deriving DecidableEq, Repr

/-- `OutputEvent<CE, ProcErr>` (modelled from the spec: the `event_handler`
module is not under `src/`): a completion variant plus zero or more carried
dedup identities (`Vec<Vec<u8>>`, here `List (List Nat)`). -/
structure OutputEvent (CE ProcErr : Type) where
  completed_event : Completion CE ProcErr
  identities : List (List Nat)
deriving DecidableEq, Repr

/-- The mutable buffer state owned by `SqsCompletionHandler`:
`completed_events`, `identities`, `completed_messages`, `completion_policy`. -/
structure HandlerState (CE : Type) where
  completed_events : List CE
  identities : List (List Nat)
  completed_messages : List SqsMessage
  completion_policy : CompletionPolicy
deriving DecidableEq, Repr

/-- One externally visible effect of the handler, in program order. -/
inductive Event where
  | serializeErr : Event
  | emitOk : Event
  | emitErr : Event
  | cacheStore : List Nat → Event
  | deleteRequest : List (String × String) → Event
  | ackOk : String → Event
  | ackErr : String → Event
  | notify : Event
deriving DecidableEq, Repr

/-- `DeleteMessageBatchResult`: ids reported successful and ids reported
failed (rusoto's `successful`/`failed` entry lists, keeping only the ids the
code reads). -/
structure BatchResult where
  successful : List String
  failed : List String
deriving DecidableEq, Repr

/-- The SQS client's `delete_message_batch`, as a function from the request
entries (`(id, receipt_handle)` pairs) to either a request-level failure
(timeout/transport) or a per-message `BatchResult`. -/
abbrev SqsDeleteFn := List (String × String) → Except Unit BatchResult

/-- Result of running a handler operation: either a normal return with the
new state and effect trace, or a process abort (Rust panic) recording the
state and the effects already performed at that moment. -/
inductive FlushResult (CE : Type) where
  | panicked : HandlerState CE → List Event → FlushResult CE
  | ok : HandlerState CE → List Event → FlushResult CE
deriving DecidableEq, Repr

/-- The state component of a `FlushResult`, whichever way it ended. -/
def FlushResult.state {CE : Type} : FlushResult CE → HandlerState CE
  | .panicked st _ => st
  | .ok st _ => st

/-- The trace component of a `FlushResult`. -/
def FlushResult.trace {CE : Type} : FlushResult CE → List Event
  | .panicked _ tr => tr
  | .ok _ tr => tr

/-- `chunk.iter().map(|msg| msg.message_id.clone().unwrap()).collect()`:
`none` models the `unwrap` panic on a missing `message_id`. -/
def buildMsgIds : List SqsMessage → Option (List String)
  | [] => some []
  | m :: rest =>
    match m.message_id, buildMsgIds rest with
    | some i, some is => some (i :: is)
    | _, _ => none

/-- Building the `DeleteMessageBatchRequestEntry` list for one chunk:
`id: msg.message_id.clone().unwrap(), receipt_handle:
msg.receipt_handle.clone().expect(..)`; `none` models either panic. -/
def buildEntries : List SqsMessage → Option (List (String × String))
  | [] => some []
  | m :: rest =>
    match m.message_id, m.receipt_handle, buildEntries rest with
    | some i, some r, some es => some ((i, r) :: es)
    | _, _, _ => none

/-- Fuel-based worker for `chunks10`; the fuel (any bound on the list
length) only serves to make the recursion structural. -/
def chunksGo {α : Type} : Nat → List α → List (List α)
  | _, [] => []
  | 0, _ :: _ => []
  | fuel + 1, x :: xs => ((x :: xs).take 10) :: chunksGo fuel ((x :: xs).drop 10)

/-- `self.completed_messages.chunks(10)`: consecutive chunks of at most 10,
the last possibly shorter, never empty. -/
def chunks10 {α : Type} (l : List α) : List (List α) := chunksGo l.length l

/-- The per-chunk delete loop (source lines 182–205): for each chunk build
the message-id list and the request entries (either missing field panics),
issue the batch-delete request, and collect `(result, msg_ids)` pairs.
Returns the `deleteRequest` trace so far and `none` for the collected acks
if a panic occurred mid-loop. -/
def deleteLoop (sqs : SqsDeleteFn) :
    List (List SqsMessage) →
      List Event × Option (List (Except Unit BatchResult × List String))
  | [] => ([], some [])
  | chunk :: rest =>
    match buildMsgIds chunk, buildEntries chunk with
    | some ids, some entries =>
      (Event.deleteRequest entries :: (deleteLoop sqs rest).1,
        ((deleteLoop sqs rest).2).map (fun acks => (sqs entries, ids) :: acks))
    | _, _ => ([], none)

/-- The ack-callback invocations for one collected `(result, msg_ids)` pair
(source lines 209–228): on request success, `Ok(id)` for each backend-reported
success then `Err(id)` for each backend-reported failure; on request failure,
`Err(id)` for every id in the chunk. -/
def ackChunk : Except Unit BatchResult × List String → List Event
  | (Except.ok batch_result, _) =>
    batch_result.successful.map Event.ackOk ++ batch_result.failed.map Event.ackErr
  | (Except.error _, msg_ids) => msg_ids.map Event.ackErr

/-- `SqsCompletionHandler::ack_all` (source lines 151–237): serialize
(panic on failure after clearing `completed_events` and `completed_messages`
— not `identities`); emit (`expect`, panic on failure, nothing cleared);
drain `identities` through the cache (failures only logged); batch-delete in
chunks of 10 (missing id/receipt panics); invoke the ack callback per
collected result; clear `completed_events` and `completed_messages`; signal
`notify` if present. -/
def ack_all {CE SErr EErr Payload : Type}
    (ser : List CE → Except SErr Payload)
    (emit : Payload → Except EErr Unit)
    (sqs : SqsDeleteFn) (notify : Bool)
    (st : HandlerState CE) : FlushResult CE :=
  match ser st.completed_events with
  | Except.error _ =>
    FlushResult.panicked
      { st with completed_events := [], completed_messages := [] }
      [Event.serializeErr]
  | Except.ok payload =>
    match emit payload with
    | Except.error _ => FlushResult.panicked st [Event.emitErr]
    | Except.ok _ =>
      match deleteLoop sqs (chunks10 st.completed_messages) with
      | (delTr, none) =>
        FlushResult.panicked { st with identities := [] }
          (Event.emitOk :: st.identities.map Event.cacheStore ++ delTr)
      | (delTr, some acks) =>
        FlushResult.ok
          { st with identities := [], completed_events := [], completed_messages := [] }
          (Event.emitOk :: st.identities.map Event.cacheStore ++ delTr ++
            (acks.map ackChunk).flatten ++
            (if notify then [Event.notify] else []))

/-- The buffer-mutation phase of `mark_complete` (source lines 122–137):
`Total` pushes the event and the message and extends identities; `Partial`
pushes the event and extends identities only; `Error` mutates nothing. -/
def markCompleteBuffers {CE ProcErr : Type} (msg : SqsMessage)
    (completed : OutputEvent CE ProcErr) (st : HandlerState CE) :
    HandlerState CE :=
  match completed.completed_event with
  | Completion.Total ce =>
    { st with
      completed_events := st.completed_events ++ [ce]
      completed_messages := st.completed_messages ++ [msg]
      identities := st.identities ++ completed.identities }
  | Completion.Partial (ce, _) =>
    { st with
      completed_events := st.completed_events ++ [ce]
      identities := st.identities ++ completed.identities }
  | Completion.Error _ => st

/-- `SqsCompletionHandler::mark_complete` (source lines 117–149): mutate the
buffers by outcome, then evaluate `should_flush(completed_events.len() as
u16)` at time `now`; if it says flush, run `ack_all(None)` and afterwards
`set_last_flush` at the (later) time `nowAfter`. A panic inside the flush
aborts before `set_last_flush` runs. -/
def mark_complete {CE ProcErr SErr EErr Payload : Type}
    (ser : List CE → Except SErr Payload)
    (emit : Payload → Except EErr Unit)
    (sqs : SqsDeleteFn) (now nowAfter : Nat)
    (msg : SqsMessage) (completed : OutputEvent CE ProcErr)
    (st : HandlerState CE) : FlushResult CE :=
  match (markCompleteBuffers msg completed st).completion_policy.should_flush
      now ((markCompleteBuffers msg completed st).completed_events.length % 65536) with
  | none => FlushResult.panicked (markCompleteBuffers msg completed st) []
  | some false => FlushResult.ok (markCompleteBuffers msg completed st) []
  | some true =>
    match ack_all ser emit sqs false (markCompleteBuffers msg completed st) with
    | FlushResult.panicked st2 tr => FlushResult.panicked st2 tr
    | FlushResult.ok st2 tr =>
      FlushResult.ok
        { st2 with completion_policy := st2.completion_policy.set_last_flush nowAfter }
        tr

/-- `SqsCompletionHandlerMessage`: the two actor commands. -/
inductive SqsCompletionHandlerMessage (CE ProcErr : Type) where
  | mark_complete : SqsMessage → OutputEvent CE ProcErr →
      SqsCompletionHandlerMessage CE ProcErr
  | ack_all : Bool → SqsCompletionHandlerMessage CE ProcErr

/-- `SqsCompletionHandler::route_message` (source lines 262–269):
`mark_complete` commands go through `mark_complete` (policy check, possible
flush, possible timer reset); `ack_all` commands run `ack_all(notify)`
directly — note: with no `set_last_flush` afterwards. -/
def route_message {CE ProcErr SErr EErr Payload : Type}
    (ser : List CE → Except SErr Payload)
    (emit : Payload → Except EErr Unit)
    (sqs : SqsDeleteFn) (now nowAfter : Nat)
    (m : SqsCompletionHandlerMessage CE ProcErr)
    (st : HandlerState CE) : FlushResult CE :=
  match m with
  | SqsCompletionHandlerMessage.mark_complete msg completed =>
    mark_complete ser emit sqs now nowAfter msg completed st
  | SqsCompletionHandlerMessage.ack_all notify => ack_all ser emit sqs notify st

/-- The batch-delete requests (their entry lists) appearing in a trace, in
order. -/
def deleteRequests (tr : List Event) : List (List (String × String)) :=
  tr.filterMap fun e =>
    match e with
    | Event.deleteRequest es => some es
    | _ => none

/-- Whether an event is an ack-callback invocation. -/
def Event.isAck : Event → Bool
  | Event.ackOk _ => true
  | Event.ackErr _ => true
  | _ => false

theorem chunksGo_fuel_irrel {α : Type} :
    ∀ (fuel fuel' : Nat) (l : List α), l.length ≤ fuel → l.length ≤ fuel' →
      chunksGo fuel l = chunksGo fuel' l := by
  intro fuel
  induction fuel with
  | zero =>
    intro fuel' l h h'
    cases l with
    | nil => cases fuel' <;> rfl
    | cons x xs => simp at h
  | succ n ih =>
    intro fuel' l h h'
    cases l with
    | nil => cases fuel' <;> rfl
    | cons x xs =>
      cases fuel' with
      | zero => simp at h'
      | succ n' =>
        simp only [chunksGo]
        congr 1
        apply ih
        · simp only [List.length_drop, List.length_cons]
          simp only [List.length_cons] at h
          omega
        · simp only [List.length_drop, List.length_cons]
          simp only [List.length_cons] at h'
          omega

theorem chunks10_nil {α : Type} : chunks10 ([] : List α) = [] := rfl

theorem chunks10_cons {α : Type} (x : α) (xs : List α) :
    chunks10 (x :: xs) = ((x :: xs).take 10) :: chunks10 ((x :: xs).drop 10) := by
  show chunksGo (x :: xs).length (x :: xs) = _
  simp only [List.length_cons, chunksGo]
  congr 1
  apply chunksGo_fuel_irrel
  · simp only [List.length_drop, List.length_cons]; omega
  · exact Nat.le_refl _

theorem chunks10_flatten {α : Type} (l : List α) : (chunks10 l).flatten = l := by
  suffices h : ∀ (fuel : Nat) (l : List α), l.length ≤ fuel →
      (chunksGo fuel l).flatten = l from h l.length l (Nat.le_refl _)
  intro fuel
  induction fuel with
  | zero =>
    intro l h
    cases l with
    | nil => rfl
    | cons x xs => simp at h
  | succ n ih =>
    intro l h
    cases l with
    | nil => rfl
    | cons x xs =>
      simp only [chunksGo, List.flatten_cons]
      rw [ih]
      · exact List.take_append_drop 10 (x :: xs)
      · simp only [List.length_drop, List.length_cons]
        simp only [List.length_cons] at h
        omega

theorem exists_chunk_of_mem {α : Type} {m : α} {l : List α} (hm : m ∈ l) :
    ∃ c ∈ chunks10 l, m ∈ c := by
  rw [← chunks10_flatten l] at hm
  exact List.mem_flatten.mp hm

theorem getLast?_cons_ne {α : Type} (a : α) (l : List α) (h : l ≠ []) :
    (a :: l).getLast? = l.getLast? := by
  cases l with
  | nil => exact absurd rfl h
  | cons b t => simp [List.getLast?_cons_cons]

/-- For a deletable-message list of length `10 * k + r` with `0 < r < 10`,
`chunks(10)` yields `k + 1` chunks, the last of length `r`. -/
theorem chunks10_count {α : Type} :
    ∀ (k : Nat) (xs : List α) (r : Nat), xs.length = 10 * k + r → 0 < r → r < 10 →
      (chunks10 xs).length = k + 1 ∧
      (chunks10 xs).getLast?.map List.length = some r := by
  intro k
  induction k with
  | zero =>
    intro xs r hlen hr hr10
    cases xs with
    | nil => simp at hlen; omega
    | cons x t =>
      rw [chunks10_cons]
      have hle : (x :: t).length ≤ 10 := by omega
      have hd : (x :: t).drop 10 = [] := List.drop_eq_nil_of_le hle
      have ht : (x :: t).take 10 = x :: t := List.take_of_length_le hle
      rw [hd, ht, chunks10_nil]
      refine ⟨rfl, ?_⟩
      have : (x :: t).length = r := by omega
      simp [List.getLast?, this]
  | succ k ih =>
    intro xs r hlen hr hr10
    cases xs with
    | nil => simp at hlen; omega
    | cons x t =>
      rw [chunks10_cons]
      have hdl : ((x :: t).drop 10).length = 10 * k + r := by
        simp only [List.length_drop]; omega
      obtain ⟨h1, h2⟩ := ih ((x :: t).drop 10) r hdl hr hr10
      have hne : chunks10 ((x :: t).drop 10) ≠ [] := by
        intro hcon
        rw [hcon] at h1
        simp at h1
      refine ⟨?_, ?_⟩
      · rw [List.length_cons, h1]
      · rw [getLast?_cons_ne _ _ hne]
        exact h2

theorem buildEntries_eq_none {m : SqsMessage}
    (hbad : m.message_id = none ∨ m.receipt_handle = none) :
    ∀ (c : List SqsMessage), m ∈ c → buildEntries c = none := by
  intro c
  induction c with
  | nil => intro h; simp at h
  | cons a t ih =>
    intro hm
    rcases List.mem_cons.mp hm with h | h
    · subst h
      rcases hbad with h | h
      · simp [buildEntries, h]
      · cases hid : m.message_id <;> simp [buildEntries, h, hid]
    · cases hid : a.message_id <;> cases hrh : a.receipt_handle <;>
        simp [buildEntries, ih h, hid, hrh]

theorem buildMsgIds_isSome :
    ∀ (c : List SqsMessage), (∀ m ∈ c, m.message_id.isSome) →
      ∃ ids, buildMsgIds c = some ids := by
  intro c
  induction c with
  | nil => exact fun _ => ⟨[], rfl⟩
  | cons a t ih =>
    intro h
    obtain ⟨i, hi⟩ := Option.isSome_iff_exists.mp (h a (List.mem_cons_self a t))
    obtain ⟨ids, hids⟩ := ih fun m hm => h m (List.mem_cons_of_mem _ hm)
    exact ⟨i :: ids, by simp [buildMsgIds, hi, hids]⟩

theorem buildEntries_length :
    ∀ (c : List SqsMessage),
      (∀ m ∈ c, m.message_id.isSome ∧ m.receipt_handle.isSome) →
      ∃ es, buildEntries c = some es ∧ es.length = c.length := by
  intro c
  induction c with
  | nil => exact fun _ => ⟨[], rfl, rfl⟩
  | cons a t ih =>
    intro h
    obtain ⟨i, hi⟩ :=
      Option.isSome_iff_exists.mp (h a (List.mem_cons_self a t)).1
    obtain ⟨r, hr⟩ :=
      Option.isSome_iff_exists.mp (h a (List.mem_cons_self a t)).2
    obtain ⟨es, hes, hlen⟩ := ih fun m hm => h m (List.mem_cons_of_mem _ hm)
    exact ⟨(i, r) :: es, by simp [buildEntries, hi, hr, hes], by simp [hlen]⟩

theorem deleteLoop_snd_none {sqs : SqsDeleteFn} {m : SqsMessage}
    (hbad : m.message_id = none ∨ m.receipt_handle = none) :
    ∀ (cs : List (List SqsMessage)) (c : List SqsMessage), c ∈ cs → m ∈ c →
      (deleteLoop sqs cs).2 = none := by
  intro cs
  induction cs with
  | nil => intro c h; simp at h
  | cons c0 rest ih =>
    intro c hc hm
    rcases List.mem_cons.mp hc with h | h
    · subst h
      have hbe : buildEntries c = none := buildEntries_eq_none hbad c hm
      simp only [deleteLoop, hbe]
      cases buildMsgIds c <;> rfl
    · simp only [deleteLoop]
      cases hb1 : buildMsgIds c0 with
      | none => rfl
      | some ids =>
        cases hb2 : buildEntries c0 with
        | none => rfl
        | some es => simp [ih c h hm]

theorem deleteRequests_nil : deleteRequests [] = [] := rfl

theorem deleteRequests_cons_del (es : List (String × String)) (tr : List Event) :
    deleteRequests (Event.deleteRequest es :: tr) = es :: deleteRequests tr := by
  simp [deleteRequests, List.filterMap_cons]

theorem deleteRequests_append (a b : List Event) :
    deleteRequests (a ++ b) = deleteRequests a ++ deleteRequests b := by
  simp [deleteRequests, List.filterMap_append]

theorem deleteRequests_eq_nil {tr : List Event}
    (h : ∀ e ∈ tr, ∀ es, e ≠ Event.deleteRequest es) : deleteRequests tr = [] := by
  induction tr with
  | nil => rfl
  | cons e t ih =>
    have he := h e (List.mem_cons_self e t)
    have ht := ih fun e' h' es => h e' (List.mem_cons_of_mem _ h') es
    cases e <;> simp_all [deleteRequests, List.filterMap_cons]

theorem mem_deleteLoop_fst {sqs : SqsDeleteFn} :
    ∀ (cs : List (List SqsMessage)) (e : Event), e ∈ (deleteLoop sqs cs).1 →
      ∃ es, e = Event.deleteRequest es := by
  intro cs
  induction cs with
  | nil => intro e h; simp [deleteLoop] at h
  | cons c0 rest ih =>
    intro e
    cases hb1 : buildMsgIds c0 with
    | none => simp [deleteLoop, hb1]
    | some ids =>
      cases hb2 : buildEntries c0 with
      | none => simp [deleteLoop, hb1, hb2]
      | some es =>
        simp only [deleteLoop, hb1, hb2]
        intro h
        rcases List.mem_cons.mp h with h | h
        · exact ⟨es, h⟩
        · exact ih e h

theorem deleteLoop_good {sqs : SqsDeleteFn} :
    ∀ (cs : List (List SqsMessage)),
      (∀ c ∈ cs, ∀ m ∈ c, m.message_id.isSome ∧ m.receipt_handle.isSome) →
      ∃ acks, (deleteLoop sqs cs).2 = some acks ∧
        (deleteRequests (deleteLoop sqs cs).1).map List.length =
          cs.map List.length := by
  intro cs
  induction cs with
  | nil => exact fun _ => ⟨[], rfl, rfl⟩
  | cons c0 rest ih =>
    intro h
    obtain ⟨ids, hids⟩ :=
      buildMsgIds_isSome c0 fun m hm => (h c0 (List.mem_cons_self c0 rest) m hm).1
    obtain ⟨es, hes, heslen⟩ :=
      buildEntries_length c0 (h c0 (List.mem_cons_self c0 rest))
    obtain ⟨acks, hacks, hreq⟩ := ih fun c hc => h c (List.mem_cons_of_mem _ hc)
    refine ⟨(sqs es, ids) :: acks, ?_, ?_⟩
    · simp [deleteLoop, hids, hes, hacks]
    · simp only [deleteLoop, hids, hes, deleteRequests_cons_del, List.map_cons]
      rw [heslen, hreq]

theorem mem_ackChunk {x : Except Unit BatchResult × List String} {e : Event}
    (h : e ∈ ackChunk x) : e.isAck = true := by
  obtain ⟨res, ids⟩ := x
  cases res with
  | ok br =>
    simp only [ackChunk, List.mem_append] at h
    rcases h with h | h <;>
      obtain ⟨i, _, rfl⟩ := List.mem_map.mp h <;> rfl
  | error u =>
    obtain ⟨i, _, rfl⟩ := List.mem_map.mp h
    rfl

theorem notify_not_mem_cache (ids : List (List Nat)) :
    Event.notify ∉ ids.map Event.cacheStore := by
  intro h
  obtain ⟨i, _, hi⟩ := List.mem_map.mp h
  cases hi

theorem notify_not_mem_del {sqs : SqsDeleteFn} (cs : List (List SqsMessage)) :
    Event.notify ∉ (deleteLoop sqs cs).1 := by
  intro h
  obtain ⟨es, he⟩ := mem_deleteLoop_fst cs _ h
  cases he

theorem notify_not_mem_acks (acks : List (Except Unit BatchResult × List String)) :
    Event.notify ∉ (acks.map ackChunk).flatten := by
  intro h
  obtain ⟨l, hl, hm⟩ := List.mem_flatten.mp h
  obtain ⟨x, _, rfl⟩ := List.mem_map.mp hl
  have := mem_ackChunk hm
  simp [Event.isAck] at this

theorem isAck_false_of_mem_cache {e : Event} {ids : List (List Nat)}
    (h : e ∈ ids.map Event.cacheStore) : e.isAck = false := by
  obtain ⟨i, _, rfl⟩ := List.mem_map.mp h
  rfl

theorem isAck_false_of_mem_del {sqs : SqsDeleteFn} {cs : List (List SqsMessage)}
    {e : Event} (h : e ∈ (deleteLoop sqs cs).1) : e.isAck = false := by
  obtain ⟨es, rfl⟩ := mem_deleteLoop_fst cs _ h
  rfl

/-- Inversion: a normally returning `ack_all` went through the success
branch of every step. -/
theorem ack_all_ok_inv {CE SErr EErr Payload : Type}
    {ser : List CE → Except SErr Payload} {emit : Payload → Except EErr Unit}
    {sqs : SqsDeleteFn} {notify : Bool} {st st' : HandlerState CE}
    {tr : List Event}
    (h : ack_all ser emit sqs notify st = FlushResult.ok st' tr) :
    ∃ p acks delTr, ser st.completed_events = Except.ok p ∧
      emit p = Except.ok () ∧
      deleteLoop sqs (chunks10 st.completed_messages) = (delTr, some acks) ∧
      st' = { st with identities := [], completed_events := [],
                      completed_messages := [] } ∧
      tr = Event.emitOk :: st.identities.map Event.cacheStore ++ delTr ++
        (acks.map ackChunk).flatten ++
        (if notify then [Event.notify] else []) := by
  unfold ack_all at h
  split at h
  · simp at h
  · rename_i p hser
    split at h
    · simp at h
    · rename_i u hemit
      split at h
      · simp at h
      · rename_i delTr acks hdel
        simp only [FlushResult.ok.injEq] at h
        exact ⟨p, acks, delTr, hser, by cases u; exact hemit, hdel,
          h.1.symm, h.2.symm⟩

/-- Inversion: an aborting `ack_all` panicked at serialization, at emission,
or while building a batch-delete request. -/
theorem ack_all_panicked_inv {CE SErr EErr Payload : Type}
    {ser : List CE → Except SErr Payload} {emit : Payload → Except EErr Unit}
    {sqs : SqsDeleteFn} {notify : Bool} {st st' : HandlerState CE}
    {tr : List Event}
    (h : ack_all ser emit sqs notify st = FlushResult.panicked st' tr) :
    (∃ e, ser st.completed_events = Except.error e ∧
      st' = { st with completed_events := [], completed_messages := [] } ∧
      tr = [Event.serializeErr]) ∨
    (∃ p e, ser st.completed_events = Except.ok p ∧ emit p = Except.error e ∧
      st' = st ∧ tr = [Event.emitErr]) ∨
    (∃ p delTr, ser st.completed_events = Except.ok p ∧
      emit p = Except.ok () ∧
      deleteLoop sqs (chunks10 st.completed_messages) = (delTr, none) ∧
      st' = { st with identities := [] } ∧
      tr = Event.emitOk :: st.identities.map Event.cacheStore ++ delTr) := by
  unfold ack_all at h
  split at h
  · rename_i e hser
    simp only [FlushResult.panicked.injEq] at h
    exact Or.inl ⟨e, hser, h.1.symm, h.2.symm⟩
  · rename_i p hser
    split at h
    · rename_i e hemit
      simp only [FlushResult.panicked.injEq] at h
      exact Or.inr (Or.inl ⟨p, e, hser, hemit, h.1.symm, h.2.symm⟩)
    · rename_i u hemit
      split at h
      · rename_i delTr hdel
        simp only [FlushResult.panicked.injEq] at h
        exact Or.inr (Or.inr ⟨p, delTr, hser, by cases u; exact hemit, hdel,
          h.1.symm, h.2.symm⟩)
      · simp at h

/-- `ack_all` never touches the completion policy, whichever way it ends. -/
theorem ack_all_policy {CE SErr EErr Payload : Type}
    (ser : List CE → Except SErr Payload) (emit : Payload → Except EErr Unit)
    (sqs : SqsDeleteFn) (notify : Bool) (st : HandlerState CE) :
    (ack_all ser emit sqs notify st).state.completion_policy =
      st.completion_policy := by
  unfold ack_all
  split
  · rfl
  · split
    · rfl
    · split <;> rfl

/-- The buffer-mutation phase of `mark_complete` never touches the
completion policy. -/
theorem markCompleteBuffers_policy {CE ProcErr : Type} (msg : SqsMessage)
    (completed : OutputEvent CE ProcErr) (st : HandlerState CE) :
    (markCompleteBuffers msg completed st).completion_policy =
      st.completion_policy := by
  unfold markCompleteBuffers
  split <;> rfl

/-- Claim C4: for every count `c`, `should_flush(c)` returns true if and
only if `c >= max_messages` or the time elapsed since `last_flush` is at
least `max_time_between_flushes`, and returns false otherwise; it is a pure
function of the policy, the clock and the count. -/
theorem claim_C4 (p : CompletionPolicy) (now c : Nat)
    (h : p.last_flush ≤ now) :
    (p.should_flush now c = some true ↔
      (p.max_messages ≤ c ∨
        p.max_time_between_flushes ≤ now - p.last_flush)) ∧
    (p.should_flush now c = some false ↔
      ¬(p.max_messages ≤ c ∨
        p.max_time_between_flushes ≤ now - p.last_flush)) := by
  by_cases hc : p.max_messages ≤ c <;>
    by_cases ht : p.max_time_between_flushes ≤ now - p.last_flush <;>
      simp [CompletionPolicy.should_flush, checkedDurationSince, hc, ht, h]

/-- Witness for C4 at a concrete policy, clock and count. -/
theorem claim_C4_witness :
    (5 : Nat) ≤ 7 ∧
    (((⟨3, 10, 5⟩ : CompletionPolicy).should_flush 7 1 = some true ↔
        ((3 : Nat) ≤ 1 ∨ (10 : Nat) ≤ 7 - 5)) ∧
      ((⟨3, 10, 5⟩ : CompletionPolicy).should_flush 7 1 = some false ↔
        ¬((3 : Nat) ≤ 1 ∨ (10 : Nat) ≤ 7 - 5))) :=
  ⟨by decide, claim_C4 ⟨3, 10, 5⟩ 7 1 (by decide)⟩

/-- Claim C5: a `mark_complete` with a `Partial` outcome grows the
completed-results buffer by one and the dedup-identity buffer by the
outcome's carried identities, leaving the deletable-message buffer
unchanged; a `mark_complete` with an `Error` outcome changes no buffer.
(The buffer mutation is lines 122–137; when the completion policy does not
trigger a flush, the whole `mark_complete` call does exactly this and
nothing else.) -/
theorem claim_C5 {CE ProcErr SErr EErr Payload : Type}
    (ser : List CE → Except SErr Payload) (emit : Payload → Except EErr Unit)
    (sqs : SqsDeleteFn) (now nowAfter : Nat) (msg : SqsMessage)
    (st : HandlerState CE) (ce : CE) (perr e : ProcErr)
    (ids : List (List Nat)) :
    ((markCompleteBuffers msg ⟨Completion.Partial (ce, perr), ids⟩ st).completed_events.length
        = st.completed_events.length + 1 ∧
      (markCompleteBuffers msg ⟨Completion.Partial (ce, perr), ids⟩ st).identities
        = st.identities ++ ids ∧
      (markCompleteBuffers msg ⟨Completion.Partial (ce, perr), ids⟩ st).completed_messages
        = st.completed_messages) ∧
    markCompleteBuffers msg ⟨Completion.Error e, ids⟩ st = st ∧
    (st.completion_policy.should_flush now
        ((st.completed_events.length + 1) % 65536) = some false →
      mark_complete ser emit sqs now nowAfter msg
          ⟨Completion.Partial (ce, perr), ids⟩ st =
        FlushResult.ok
          (markCompleteBuffers msg ⟨Completion.Partial (ce, perr), ids⟩ st)
          []) ∧
    (st.completion_policy.should_flush now
        (st.completed_events.length % 65536) = some false →
      mark_complete ser emit sqs now nowAfter msg
          ⟨Completion.Error e, ids⟩ st =
        FlushResult.ok st []) := by
  refine ⟨⟨by simp [markCompleteBuffers], rfl, rfl⟩, rfl, ?_, ?_⟩
  · intro hsf
    unfold mark_complete
    have hlen :
        (markCompleteBuffers msg ⟨Completion.Partial (ce, perr), ids⟩ st).completed_events.length
          = st.completed_events.length + 1 := by simp [markCompleteBuffers]
    rw [markCompleteBuffers_policy, hlen, hsf]
  · intro hsf
    unfold mark_complete
    rw [markCompleteBuffers_policy msg (⟨Completion.Error e, ids⟩ : OutputEvent CE ProcErr) st,
      show (markCompleteBuffers msg (⟨Completion.Error e, ids⟩ : OutputEvent CE ProcErr) st).completed_events.length
          = st.completed_events.length from rfl, hsf]
    rfl

/-- Witness for C5 at a concrete state and outcome (policy does not
trigger). -/
theorem claim_C5_witness :
    ((⟨100, 1000, 5⟩ : CompletionPolicy).should_flush 6 ((1 + 1) % 65536)
        = some false) ∧
    mark_complete (fun _ => (Except.ok 0 : Except Unit Nat))
        (fun _ => (Except.ok () : Except Unit Unit))
        (fun _ => Except.ok ⟨[], []⟩) 6 7 ⟨some "a", some "b"⟩
        (⟨Completion.Partial (9, 0), [[2]]⟩ : OutputEvent Nat Nat)
        (⟨[7], [[1]], [], ⟨100, 1000, 5⟩⟩ : HandlerState Nat) =
      FlushResult.ok
        (⟨[7, 9], [[1], [2]], [], ⟨100, 1000, 5⟩⟩ : HandlerState Nat) [] :=
  ⟨by decide,
    (claim_C5 (fun _ => (Except.ok 0 : Except Unit Nat))
      (fun _ => (Except.ok () : Except Unit Unit))
      (fun _ => Except.ok ⟨[], []⟩) 6 7 ⟨some "a", some "b"⟩
      (⟨[7], [[1]], [], ⟨100, 1000, 5⟩⟩ : HandlerState Nat)
      9 0 0 [[2]]).2.2.1 (by decide)⟩

/-- Claim C7: for a chunk whose batch-delete request fails outright, the
ack callback is invoked with `Err(id)` for every message id of the chunk
and with `Ok` for none; for a chunk whose request succeeds, it is invoked
with `Ok(id)` for each backend-reported success and `Err(id)` for each
backend-reported failure. -/
theorem claim_C7 (e : Unit) (ids ids2 : List String) (br : BatchResult) :
    (ackChunk (Except.error e, ids) = ids.map Event.ackErr ∧
      ∀ i, Event.ackOk i ∉ ackChunk (Except.error e, ids)) ∧
    ackChunk (Except.ok br, ids2) =
      br.successful.map Event.ackOk ++ br.failed.map Event.ackErr := by
  refine ⟨⟨rfl, ?_⟩, rfl⟩
  intro i hmem
  simp [ackChunk, List.mem_map] at hmem

/-- Claim C1 is false as stated: when serialization fails, the code clears
only the completed-results and deletable-messages buffers before the panic;
the dedup-identity buffer is left untouched. Concretely, aborting with one
buffered identity leaves that buffer equal to `[[1]] ≠ []`. -/
theorem claim_C1_counterexample :
    ack_all (fun _ => (Except.error () : Except Unit Nat))
        (fun _ => (Except.ok () : Except Unit Unit))
        (fun _ => Except.ok ⟨[], []⟩) false
        (⟨[0], [[1]], [], ⟨3, 1000, 5⟩⟩ : HandlerState Nat) =
      FlushResult.panicked
        (⟨[], [[1]], [], ⟨3, 1000, 5⟩⟩ : HandlerState Nat)
        [Event.serializeErr] ∧
    ([[1]] : List (List Nat)) ≠ [] :=
  ⟨rfl, by decide⟩

/-- Claim C1 (amended): if serialization fails, the process aborts after
clearing the completed-results and deletable-messages buffers (the
dedup-identity buffer is not cleared); if emission fails, the process
aborts clearing no buffer. In both cases the recorded trace is just the
failure event, so no cache-store, no delete request and no ack callback
happens after the failure. -/
theorem claim_C1 {CE SErr EErr Payload : Type}
    (ser : List CE → Except SErr Payload) (emit : Payload → Except EErr Unit)
    (sqs : SqsDeleteFn) (ntf : Bool) (st : HandlerState CE) :
    (∀ e, ser st.completed_events = Except.error e →
      ack_all ser emit sqs ntf st =
        FlushResult.panicked
          { st with completed_events := [], completed_messages := [] }
          [Event.serializeErr]) ∧
    (∀ p e, ser st.completed_events = Except.ok p → emit p = Except.error e →
      ack_all ser emit sqs ntf st =
        FlushResult.panicked st [Event.emitErr]) := by
  constructor
  · intro e he
    unfold ack_all
    rw [he]
  · intro p e hp hemit
    unfold ack_all
    simp only [hp, hemit]

/-- Witness for the amended C1: serialization failure with one buffered
identity, and emission failure. -/
theorem claim_C1_witness :
    ack_all (fun _ => (Except.error () : Except Unit Nat))
        (fun _ => (Except.ok () : Except Unit Unit))
        (fun _ => Except.ok ⟨[], []⟩) false
        (⟨[0], [[1]], [], ⟨3, 1000, 5⟩⟩ : HandlerState Nat) =
      FlushResult.panicked (⟨[], [[1]], [], ⟨3, 1000, 5⟩⟩ : HandlerState Nat)
        [Event.serializeErr] ∧
    ack_all (fun _ => (Except.ok 0 : Except Unit Nat))
        (fun _ => (Except.error () : Except Unit Unit))
        (fun _ => Except.ok ⟨[], []⟩) false
        (⟨[0], [[1]], [], ⟨3, 1000, 5⟩⟩ : HandlerState Nat) =
      FlushResult.panicked (⟨[0], [[1]], [], ⟨3, 1000, 5⟩⟩ : HandlerState Nat)
        [Event.emitErr] :=
  ⟨(claim_C1 _ _ _ _ _).1 () rfl, (claim_C1 _ _ _ _ _).2 0 () rfl rfl⟩

/-- Claim C2 is false as stated: the three buffers are not cleared
together at step 6 — the dedup-identity buffer is drained already during
the cache-store step. Concretely, a flush that aborts after the cache step
(missing receipt while building the delete request, i.e. before step 6)
already has an empty identity buffer while the completed-results buffer is
still non-empty. -/
theorem claim_C2_counterexample :
    ack_all (fun _ => (Except.ok 0 : Except Unit Nat))
        (fun _ => (Except.ok () : Except Unit Unit))
        (fun _ => Except.ok ⟨[], []⟩) false
        (⟨[7], [[1]], [⟨none, none⟩], ⟨3, 1000, 5⟩⟩ : HandlerState Nat) =
      FlushResult.panicked
        (⟨[7], [], [⟨none, none⟩], ⟨3, 1000, 5⟩⟩ : HandlerState Nat)
        [Event.emitOk, Event.cacheStore [1]] ∧
    ([7] : List Nat) ≠ [] :=
  ⟨rfl, by decide⟩

/-- Claim C2 (amended): a flush that runs to completion leaves all three
buffers with length 0; however the dedup-identity buffer is drained during
the cache-store step (step 3) rather than cleared together with the other
two at step 6 — observable because any abort after emission already finds
it empty. -/
theorem claim_C2 {CE SErr EErr Payload : Type}
    (ser : List CE → Except SErr Payload) (emit : Payload → Except EErr Unit)
    (sqs : SqsDeleteFn) (ntf : Bool) (st : HandlerState CE) :
    (∀ st' tr, ack_all ser emit sqs ntf st = FlushResult.ok st' tr →
      st'.completed_events.length = 0 ∧ st'.identities.length = 0 ∧
        st'.completed_messages.length = 0) ∧
    (∀ st' tr, ack_all ser emit sqs ntf st = FlushResult.panicked st' tr →
      Event.emitOk ∈ tr → st'.identities = []) := by
  constructor
  · intro st' tr h
    obtain ⟨p, acks, delTr, _, _, _, rfl, _⟩ := ack_all_ok_inv h
    exact ⟨rfl, rfl, rfl⟩
  · intro st' tr h hmem
    rcases ack_all_panicked_inv h with ⟨e, _, _, rfl⟩ | ⟨p, e, _, _, _, rfl⟩ |
      ⟨p, delTr, _, _, _, rfl, _⟩
    · simp at hmem
    · simp at hmem
    · rfl

/-- Witness for the amended C2: a completed flush ends with all three
buffers empty. -/
theorem claim_C2_witness :
    ack_all (fun _ => (Except.ok 0 : Except Unit Nat))
        (fun _ => (Except.ok () : Except Unit Unit))
        (fun es => Except.ok ⟨es.map Prod.fst, []⟩) false
        (⟨[7], [[1]], [⟨some "a", some "b"⟩], ⟨3, 1000, 5⟩⟩ : HandlerState Nat) =
      FlushResult.ok (⟨[], [], [], ⟨3, 1000, 5⟩⟩ : HandlerState Nat)
        [Event.emitOk, Event.cacheStore [1], Event.deleteRequest [("a", "b")],
          Event.ackOk "a"] ∧
    ((⟨[], [], [], ⟨3, 1000, 5⟩⟩ : HandlerState Nat).completed_events.length = 0 ∧
      (⟨[], [], [], ⟨3, 1000, 5⟩⟩ : HandlerState Nat).identities.length = 0 ∧
      (⟨[], [], [], ⟨3, 1000, 5⟩⟩ : HandlerState Nat).completed_messages.length = 0) :=
  ⟨rfl,
    (claim_C2 (fun _ => (Except.ok 0 : Except Unit Nat))
      (fun _ => (Except.ok () : Except Unit Unit))
      (fun es => Except.ok ⟨es.map Prod.fst, []⟩) false
      (⟨[7], [[1]], [⟨some "a", some "b"⟩], ⟨3, 1000, 5⟩⟩ : HandlerState Nat)).1
      _ _ rfl⟩

/-- Claim C3 is false as stated: a flush run through an explicit `ack_all`
request (`route_message`) completes without resetting the policy's
`last_flush`. Concretely, a successful explicit flush at time 100 leaves
`last_flush = 5`. -/
theorem claim_C3_counterexample :
    route_message (fun _ => (Except.ok 0 : Except Unit Nat))
        (fun _ => (Except.ok () : Except Unit Unit))
        (fun _ => Except.ok ⟨[], []⟩) 100 100
        (SqsCompletionHandlerMessage.ack_all false :
          SqsCompletionHandlerMessage Nat Unit)
        (⟨[], [], [], ⟨3, 10, 5⟩⟩ : HandlerState Nat) =
      FlushResult.ok (⟨[], [], [], ⟨3, 10, 5⟩⟩ : HandlerState Nat)
        [Event.emitOk] ∧
    (5 : Nat) ≠ 100 :=
  ⟨rfl, by decide⟩

/-- Claim C3 (amended): only a policy-triggered flush inside
`mark_complete` resets `last_flush`, and it does so exactly once, to the
clock value read after the flush completes; when the policy does not
trigger, the policy is unchanged; an explicit `ack_all` request never
touches the policy; and a flush that aborts never resets `last_flush`. -/
theorem claim_C3 {CE ProcErr SErr EErr Payload : Type}
    (ser : List CE → Except SErr Payload) (emit : Payload → Except EErr Unit)
    (sqs : SqsDeleteFn) (now nowAfter : Nat) (msg : SqsMessage)
    (completed : OutputEvent CE ProcErr) (st : HandlerState CE) (ntf : Bool) :
    (∀ st2 tr,
      (markCompleteBuffers msg completed st).completion_policy.should_flush now
          ((markCompleteBuffers msg completed st).completed_events.length % 65536)
        = some true →
      ack_all ser emit sqs false (markCompleteBuffers msg completed st) =
        FlushResult.ok st2 tr →
      mark_complete ser emit sqs now nowAfter msg completed st =
        FlushResult.ok
          { st2 with
            completion_policy := st2.completion_policy.set_last_flush nowAfter }
          tr) ∧
    ((markCompleteBuffers msg completed st).completion_policy.should_flush now
        ((markCompleteBuffers msg completed st).completed_events.length % 65536)
      = some false →
      mark_complete ser emit sqs now nowAfter msg completed st =
        FlushResult.ok (markCompleteBuffers msg completed st) [] ∧
      (markCompleteBuffers msg completed st).completion_policy =
        st.completion_policy) ∧
    (route_message ser emit sqs now nowAfter
        (SqsCompletionHandlerMessage.ack_all ntf :
          SqsCompletionHandlerMessage CE ProcErr) st).state.completion_policy =
      st.completion_policy ∧
    (∀ st2 tr, mark_complete ser emit sqs now nowAfter msg completed st =
        FlushResult.panicked st2 tr →
      st2.completion_policy.last_flush = st.completion_policy.last_flush) := by
  refine ⟨?_, ?_, ?_, ?_⟩
  · intro st2 tr hsf hack
    unfold mark_complete
    rw [hsf, hack]
  · intro hsf
    constructor
    · unfold mark_complete
      rw [hsf]
    · exact markCompleteBuffers_policy msg completed st
  · exact ack_all_policy ser emit sqs ntf st
  · intro st2 tr h
    unfold mark_complete at h
    split at h
    · simp only [FlushResult.panicked.injEq] at h
      rw [← h.1, markCompleteBuffers_policy]
    · simp at h
    · split at h
      · rename_i st3 tr3 heq
        simp only [FlushResult.panicked.injEq] at h
        have hp := ack_all_policy ser emit sqs false
          (markCompleteBuffers msg completed st)
        rw [heq] at hp
        rw [← h.1]
        have hpol : st3.completion_policy = st.completion_policy := by
          rw [show (FlushResult.panicked st3 tr3).state = st3 from rfl] at hp
          rw [hp, markCompleteBuffers_policy]
        rw [hpol]
      · simp at h

/-- Witness for the amended C3: a policy-triggered flush at a concrete
state resets `last_flush` to the post-flush clock value 42. -/
theorem claim_C3_witness :
    ((markCompleteBuffers ⟨some "a", some "b"⟩
        (⟨Completion.Total 9, [[2]]⟩ : OutputEvent Nat Unit)
        (⟨[], [], [], ⟨1, 1000, 5⟩⟩ : HandlerState Nat)).completion_policy.should_flush
        6 ((markCompleteBuffers ⟨some "a", some "b"⟩
            (⟨Completion.Total 9, [[2]]⟩ : OutputEvent Nat Unit)
            (⟨[], [], [], ⟨1, 1000, 5⟩⟩ : HandlerState Nat)).completed_events.length % 65536)
      = some true) ∧
    mark_complete (fun _ => (Except.ok 0 : Except Unit Nat))
        (fun _ => (Except.ok () : Except Unit Unit))
        (fun es => Except.ok ⟨es.map Prod.fst, []⟩) 6 42 ⟨some "a", some "b"⟩
        (⟨Completion.Total 9, [[2]]⟩ : OutputEvent Nat Unit)
        (⟨[], [], [], ⟨1, 1000, 5⟩⟩ : HandlerState Nat) =
      FlushResult.ok (⟨[], [], [], ⟨1, 1000, 42⟩⟩ : HandlerState Nat)
        [Event.emitOk, Event.cacheStore [2], Event.deleteRequest [("a", "b")],
          Event.ackOk "a"] :=
  ⟨rfl,
    (claim_C3 (fun _ => (Except.ok 0 : Except Unit Nat))
      (fun _ => (Except.ok () : Except Unit Unit))
      (fun es => Except.ok ⟨es.map Prod.fst, []⟩) 6 42 ⟨some "a", some "b"⟩
      (⟨Completion.Total 9, [[2]]⟩ : OutputEvent Nat Unit)
      (⟨[], [], [], ⟨1, 1000, 5⟩⟩ : HandlerState Nat) false).1 _ _ rfl rfl⟩

theorem deleteRequests_cons_other {e : Event}
    (h : ∀ es, e ≠ Event.deleteRequest es) (tr : List Event) :
    deleteRequests (e :: tr) = deleteRequests tr := by
  cases e <;> simp_all [deleteRequests, List.filterMap_cons]

theorem getLast?_map_comm {α β : Type} (f : α → β) :
    ∀ (l : List α), (l.map f).getLast? = l.getLast?.map f := by
  intro l
  induction l with
  | nil => rfl
  | cons a t ih =>
    cases t with
    | nil => rfl
    | cons b u =>
      simp only [List.map_cons, List.getLast?_cons_cons]
      simpa using ih

/-- The only batch-delete requests in a full flush trace are those of the
delete loop. -/
theorem deleteRequests_flush_trace (ntf : Bool) (ids : List (List Nat))
    (delTr : List Event) (acks : List (Except Unit BatchResult × List String)) :
    deleteRequests (Event.emitOk :: ids.map Event.cacheStore ++ delTr ++
        (acks.map ackChunk).flatten ++
        (if ntf then [Event.notify] else [])) = deleteRequests delTr := by
  have h1 : deleteRequests (ids.map Event.cacheStore) = [] :=
    deleteRequests_eq_nil fun e he es hcon => by
      obtain ⟨i, _, rfl⟩ := List.mem_map.mp he
      cases hcon
  have h2 : deleteRequests ((acks.map ackChunk).flatten) = [] :=
    deleteRequests_eq_nil fun e he es hcon => by
      obtain ⟨l, hl, hm⟩ := List.mem_flatten.mp he
      obtain ⟨x, _, rfl⟩ := List.mem_map.mp hl
      have := mem_ackChunk hm
      rw [hcon] at this
      cases this
  have h3 : deleteRequests (if ntf then [Event.notify] else []) = [] := by
    cases ntf <;> rfl
  rw [show Event.emitOk :: ids.map Event.cacheStore ++ delTr ++
      (acks.map ackChunk).flatten ++ (if ntf then [Event.notify] else []) =
      Event.emitOk :: (ids.map Event.cacheStore ++ delTr ++
        (acks.map ackChunk).flatten ++ (if ntf then [Event.notify] else []))
    from rfl]
  rw [deleteRequests_cons_other (fun es => by simp), deleteRequests_append,
    deleteRequests_append, deleteRequests_append, h1, h2, h3]
  simp

/-- Claim C6: during a flush, the deletable-message list is partitioned
into consecutive chunks of at most 10, one batch-delete request per chunk:
`10 * k + r` deletable messages with `0 < r < 10` produce exactly `k + 1`
batch-delete requests, the last of size `r`; an empty deletable-message
list produces no delete request. -/
theorem claim_C6 {CE SErr EErr Payload : Type}
    (ser : List CE → Except SErr Payload) (emit : Payload → Except EErr Unit)
    (sqs : SqsDeleteFn) (ntf : Bool) (st : HandlerState CE) (k r : Nat)
    (hgood : ∀ m ∈ st.completed_messages,
      m.message_id.isSome ∧ m.receipt_handle.isSome) :
    (∀ st' tr, ack_all ser emit sqs ntf st = FlushResult.ok st' tr →
      st.completed_messages.length = 10 * k + r → 0 < r → r < 10 →
      (deleteRequests tr).length = k + 1 ∧
      (deleteRequests tr).getLast?.map List.length = some r) ∧
    (∀ st' tr, st.completed_messages = [] →
      ack_all ser emit sqs ntf st = FlushResult.ok st' tr →
      deleteRequests tr = []) := by
  have hgoodc : ∀ c ∈ chunks10 st.completed_messages, ∀ m ∈ c,
      m.message_id.isSome ∧ m.receipt_handle.isSome := by
    intro c hc m hm
    refine hgood m ?_
    rw [← chunks10_flatten st.completed_messages]
    exact List.mem_flatten.mpr ⟨c, hc, hm⟩
  obtain ⟨acks0, hacks0, hmap⟩ :=
    @deleteLoop_good sqs (chunks10 st.completed_messages) hgoodc
  constructor
  · intro st' tr h hlen hr hr10
    obtain ⟨p, acks, delTr, hser, hemit, hdel, hst, htr⟩ := ack_all_ok_inv h
    have hfst : (deleteLoop sqs (chunks10 st.completed_messages)).1 = delTr :=
      congrArg Prod.fst hdel
    have hsplit : deleteRequests tr = deleteRequests delTr := by
      rw [htr]; exact deleteRequests_flush_trace ntf st.identities delTr acks
    rw [hfst] at hmap
    obtain ⟨hcnt, hlast⟩ := chunks10_count k st.completed_messages r hlen hr hr10
    constructor
    · have hl := congrArg List.length hmap
      simp only [List.length_map] at hl
      rw [hsplit, hl, hcnt]
    · have hg := congrArg List.getLast? hmap
      rw [getLast?_map_comm, getLast?_map_comm] at hg
      rw [hsplit, hg, hlast]
  · intro st' tr hmsgs h
    obtain ⟨p, acks, delTr, hser, hemit, hdel, hst, htr⟩ := ack_all_ok_inv h
    rw [hmsgs] at hdel
    have hdelTr : delTr = [] := by
      have := congrArg Prod.fst hdel
      simpa [deleteLoop, chunks10, chunksGo] using this.symm
    rw [htr, deleteRequests_flush_trace ntf st.identities delTr acks, hdelTr]
    rfl

/-- Witness for C6: twelve deletable messages produce two batch-delete
requests, the last of size 2; with `k = 1`, `r = 2`. -/
theorem claim_C6_witness :
    (∀ m ∈ (List.replicate 12 (⟨some "a", some "b"⟩ : SqsMessage)),
      m.message_id.isSome ∧ m.receipt_handle.isSome) ∧
    ack_all (fun _ => (Except.ok 0 : Except Unit Nat))
        (fun _ => (Except.ok () : Except Unit Unit))
        (fun _ => Except.ok ⟨[], []⟩) false
        (⟨[7], [], List.replicate 12 ⟨some "a", some "b"⟩,
          ⟨3, 1000, 5⟩⟩ : HandlerState Nat) =
      FlushResult.ok (⟨[], [], [], ⟨3, 1000, 5⟩⟩ : HandlerState Nat)
        [Event.emitOk, Event.deleteRequest (List.replicate 10 ("a", "b")),
          Event.deleteRequest (List.replicate 2 ("a", "b"))] ∧
    (List.replicate 12 (⟨some "a", some "b"⟩ : SqsMessage)).length =
      10 * 1 + 2 ∧
    ((deleteRequests
        [Event.emitOk, Event.deleteRequest (List.replicate 10 ("a", "b")),
          Event.deleteRequest (List.replicate 2 ("a", "b"))]).length = 1 + 1 ∧
      (deleteRequests
        [Event.emitOk, Event.deleteRequest (List.replicate 10 ("a", "b")),
          Event.deleteRequest (List.replicate 2 ("a", "b"))]).getLast?.map
          List.length = some 2) :=
  ⟨by decide, rfl, rfl,
    (claim_C6 (fun _ => (Except.ok 0 : Except Unit Nat))
      (fun _ => (Except.ok () : Except Unit Unit))
      (fun _ => Except.ok ⟨[], []⟩) false
      (⟨[7], [], List.replicate 12 ⟨some "a", some "b"⟩,
        ⟨3, 1000, 5⟩⟩ : HandlerState Nat) 1 2 (by decide)).1 _ _ rfl rfl
      (by decide) (by decide)⟩

/-- Spec buffer invariant: the deletable-message buffer is never longer
than the completed-results buffer. -/
def bufferInv1 {CE : Type} (st : HandlerState CE) : Prop :=
  st.completed_messages.length ≤ st.completed_events.length

/-- Spec buffer invariant: the dedup-identity buffer is at least as long as
the deletable-message buffer. -/
def bufferInv2 {CE : Type} (st : HandlerState CE) : Prop :=
  st.completed_messages.length ≤ st.identities.length

/-- Claim C8 is false as stated: a `Total` outcome that carries zero dedup
identities (the outcome type allows "zero or more") adds a deletable
message without adding an identity, so `len(dedup identities) ≥
len(deletable messages)` is not preserved by every `mark_complete`.
Concretely, from empty buffers one such call leaves 0 identities and 1
deletable message. -/
theorem claim_C8_counterexample :
    mark_complete (fun _ => (Except.ok 0 : Except Unit Nat))
        (fun _ => (Except.ok () : Except Unit Unit))
        (fun _ => Except.ok ⟨[], []⟩) 6 7 ⟨some "a", some "b"⟩
        (⟨Completion.Total 0, []⟩ : OutputEvent Nat Unit)
        (⟨[], [], [], ⟨100, 1000, 5⟩⟩ : HandlerState Nat) =
      FlushResult.ok
        (⟨[0], [], [⟨some "a", some "b"⟩], ⟨100, 1000, 5⟩⟩ : HandlerState Nat)
        [] ∧
    ¬((⟨[0], [], [⟨some "a", some "b"⟩],
        ⟨100, 1000, 5⟩⟩ : HandlerState Nat).completed_messages.length ≤
      (⟨[0], [], [⟨some "a", some "b"⟩],
        ⟨100, 1000, 5⟩⟩ : HandlerState Nat).identities.length) :=
  ⟨rfl, by decide⟩

/-- Claim C8 (amended): `len(deletable messages) ≤ len(completed results)`
is preserved by the buffer mutation of every `mark_complete` and holds
after every completed flush; `len(dedup identities) ≥ len(deletable
messages)` is preserved as well provided every `Total` outcome carries at
least one dedup identity (it fails for zero-identity `Total` outcomes). -/
theorem claim_C8 {CE ProcErr SErr EErr Payload : Type}
    (ser : List CE → Except SErr Payload) (emit : Payload → Except EErr Unit)
    (sqs : SqsDeleteFn) (ntf : Bool) (msg : SqsMessage)
    (completed : OutputEvent CE ProcErr) (st : HandlerState CE) :
    (bufferInv1 st → bufferInv1 (markCompleteBuffers msg completed st)) ∧
    (bufferInv2 st →
      (∀ ce, completed.completed_event = Completion.Total ce →
        completed.identities ≠ []) →
      bufferInv2 (markCompleteBuffers msg completed st)) ∧
    (∀ st' tr, ack_all ser emit sqs ntf st = FlushResult.ok st' tr →
      bufferInv1 st' ∧ bufferInv2 st') := by
  refine ⟨?_, ?_, ?_⟩
  · intro h
    unfold bufferInv1 at *
    rcases hc : completed.completed_event with ce | ⟨ce, perr⟩ | e <;>
      simp [markCompleteBuffers, hc] <;> omega
  · intro h hTot
    unfold bufferInv2 at *
    rcases hc : completed.completed_event with ce | ⟨ce, perr⟩ | e
    · have hpos : 0 < completed.identities.length :=
        List.length_pos.mpr (hTot ce hc)
      simp [markCompleteBuffers, hc]
      omega
    · simp [markCompleteBuffers, hc]
      omega
    · simpa [markCompleteBuffers, hc] using h
  · intro st' tr h
    obtain ⟨p, acks, delTr, _, _, _, rfl, _⟩ := ack_all_ok_inv h
    exact ⟨Nat.le_refl 0, Nat.le_refl 0⟩

/-- Witness for the amended C8 at a concrete state and a `Total` outcome
carrying one identity. -/
theorem claim_C8_witness :
    bufferInv1 (⟨[7], [[1]], [⟨some "a", some "b"⟩],
      ⟨100, 1000, 5⟩⟩ : HandlerState Nat) ∧
    bufferInv2 (⟨[7], [[1]], [⟨some "a", some "b"⟩],
      ⟨100, 1000, 5⟩⟩ : HandlerState Nat) ∧
    bufferInv1 (markCompleteBuffers ⟨some "c", some "d"⟩
      (⟨Completion.Total 9, [[2]]⟩ : OutputEvent Nat Unit)
      (⟨[7], [[1]], [⟨some "a", some "b"⟩],
        ⟨100, 1000, 5⟩⟩ : HandlerState Nat)) ∧
    bufferInv2 (markCompleteBuffers ⟨some "c", some "d"⟩
      (⟨Completion.Total 9, [[2]]⟩ : OutputEvent Nat Unit)
      (⟨[7], [[1]], [⟨some "a", some "b"⟩],
        ⟨100, 1000, 5⟩⟩ : HandlerState Nat)) :=
  ⟨Nat.le_refl 1, Nat.le_refl 1,
    (claim_C8 (fun _ => (Except.ok 0 : Except Unit Nat))
      (fun _ => (Except.ok () : Except Unit Unit))
      (fun _ => Except.ok ⟨[], []⟩) false ⟨some "c", some "d"⟩
      (⟨Completion.Total 9, [[2]]⟩ : OutputEvent Nat Unit)
      (⟨[7], [[1]], [⟨some "a", some "b"⟩],
        ⟨100, 1000, 5⟩⟩ : HandlerState Nat)).1 (Nat.le_refl 1),
    (claim_C8 (fun _ => (Except.ok 0 : Except Unit Nat))
      (fun _ => (Except.ok () : Except Unit Unit))
      (fun _ => Except.ok ⟨[], []⟩) false ⟨some "c", some "d"⟩
      (⟨Completion.Total 9, [[2]]⟩ : OutputEvent Nat Unit)
      (⟨[7], [[1]], [⟨some "a", some "b"⟩],
        ⟨100, 1000, 5⟩⟩ : HandlerState Nat)).2.1 (Nat.le_refl 1)
      (fun ce _ => by decide)⟩

/-- Claim C9: when `ack_all` is given a completion token, the token is
signaled exactly once, strictly after every other effect of the flush
(serialization, emission, cache stores, delete requests, ack callbacks)
and after the buffers are cleared; an aborted flush never signals it. -/
theorem claim_C9 {CE SErr EErr Payload : Type}
    (ser : List CE → Except SErr Payload) (emit : Payload → Except EErr Unit)
    (sqs : SqsDeleteFn) (st : HandlerState CE) :
    (∀ st' tr, ack_all ser emit sqs true st = FlushResult.ok st' tr →
      ∃ tr0, tr = tr0 ++ [Event.notify] ∧ Event.notify ∉ tr0 ∧
        st'.completed_events = [] ∧ st'.identities = [] ∧
        st'.completed_messages = []) ∧
    (∀ ntf st' tr, ack_all ser emit sqs ntf st = FlushResult.panicked st' tr →
      Event.notify ∉ tr) := by
  constructor
  · intro st' tr h
    obtain ⟨p, acks, delTr, hser, hemit, hdel, rfl, htr⟩ := ack_all_ok_inv h
    refine ⟨Event.emitOk :: (st.identities.map Event.cacheStore ++ delTr ++
      (acks.map ackChunk).flatten), ?_, ?_, rfl, rfl, rfl⟩
    · rw [htr]
      simp
    · intro hmem
      rcases List.mem_cons.mp hmem with h' | h'
      · exact Event.noConfusion h'
      · rcases List.mem_append.mp h' with h' | h'
        · rcases List.mem_append.mp h' with h'' | h''
          · exact notify_not_mem_cache _ h''
          · have hfst : (deleteLoop sqs (chunks10 st.completed_messages)).1
                = delTr := congrArg Prod.fst hdel
            rw [← hfst] at h''
            exact notify_not_mem_del _ h''
        · exact notify_not_mem_acks _ h'
  · intro ntf st' tr h
    rcases ack_all_panicked_inv h with ⟨e, _, _, rfl⟩ | ⟨p, e, _, _, _, rfl⟩ |
      ⟨p, delTr, _, _, hdel, _, rfl⟩
    · simp
    · simp
    · intro hmem
      rcases List.mem_cons.mp hmem with h' | h'
      · exact Event.noConfusion h'
      · rcases List.mem_append.mp h' with h' | h'
        · exact notify_not_mem_cache _ h'
        · have hfst : (deleteLoop sqs (chunks10 st.completed_messages)).1
              = delTr := congrArg Prod.fst hdel
          rw [← hfst] at h'
          exact notify_not_mem_del _ h'

/-- Witness for C9: a concrete flush with a completion token signals it
last. -/
theorem claim_C9_witness :
    ack_all (fun _ => (Except.ok 0 : Except Unit Nat))
        (fun _ => (Except.ok () : Except Unit Unit))
        (fun es => Except.ok ⟨es.map Prod.fst, []⟩) true
        (⟨[7], [[1]], [⟨some "a", some "b"⟩], ⟨3, 1000, 5⟩⟩ : HandlerState Nat) =
      FlushResult.ok (⟨[], [], [], ⟨3, 1000, 5⟩⟩ : HandlerState Nat)
        [Event.emitOk, Event.cacheStore [1], Event.deleteRequest [("a", "b")],
          Event.ackOk "a", Event.notify] ∧
    (∃ tr0,
      ([Event.emitOk, Event.cacheStore [1], Event.deleteRequest [("a", "b")],
          Event.ackOk "a", Event.notify] : List Event) =
        tr0 ++ [Event.notify] ∧ Event.notify ∉ tr0 ∧
      (⟨[], [], [], ⟨3, 1000, 5⟩⟩ : HandlerState Nat).completed_events = [] ∧
      (⟨[], [], [], ⟨3, 1000, 5⟩⟩ : HandlerState Nat).identities = [] ∧
      (⟨[], [], [], ⟨3, 1000, 5⟩⟩ : HandlerState Nat).completed_messages = []) :=
  ⟨rfl,
    (claim_C9 (fun _ => (Except.ok 0 : Except Unit Nat))
      (fun _ => (Except.ok () : Except Unit Unit))
      (fun es => Except.ok ⟨es.map Prod.fst, []⟩)
      (⟨[7], [[1]], [⟨some "a", some "b"⟩],
        ⟨3, 1000, 5⟩⟩ : HandlerState Nat)).1 _ _ rfl⟩

/-- Claim C10: every message buffered for deletion must carry both a
`message_id` and a `receipt_handle`; if a buffered deletable message lacks
either, the flush panics while building the batch-delete request — it
neither returns an error nor reports the message through the ack callback
(the trace of the abort contains no ack invocation and no token signal). -/
theorem claim_C10 {CE SErr EErr Payload : Type}
    (ser : List CE → Except SErr Payload) (emit : Payload → Except EErr Unit)
    (sqs : SqsDeleteFn) (ntf : Bool) (st : HandlerState CE) (p : Payload)
    (m : SqsMessage)
    (hser : ser st.completed_events = Except.ok p)
    (hemit : emit p = Except.ok ())
    (hm : m ∈ st.completed_messages)
    (hbad : m.message_id = none ∨ m.receipt_handle = none) :
    ∃ tr, ack_all ser emit sqs ntf st =
        FlushResult.panicked { st with identities := [] } tr ∧
      (∀ e ∈ tr, e.isAck = false) ∧ Event.notify ∉ tr := by
  obtain ⟨c, hc, hmc⟩ := exists_chunk_of_mem hm
  have hnone : (deleteLoop sqs (chunks10 st.completed_messages)).2 = none :=
    deleteLoop_snd_none hbad _ c hc hmc
  refine ⟨Event.emitOk :: st.identities.map Event.cacheStore ++
      (deleteLoop sqs (chunks10 st.completed_messages)).1, ?_, ?_, ?_⟩
  · rcases hd : deleteLoop sqs (chunks10 st.completed_messages) with ⟨tr0, obt⟩
    rw [hd] at hnone
    have hobt : obt = none := hnone
    subst hobt
    unfold ack_all
    simp only [hser, hemit, hd]
  · intro e he
    rcases List.mem_cons.mp he with rfl | he
    · rfl
    · rcases List.mem_append.mp he with he | he
      · exact isAck_false_of_mem_cache he
      · exact isAck_false_of_mem_del he
  · intro hmem
    rcases List.mem_cons.mp hmem with h' | h'
    · exact Event.noConfusion h'
    · rcases List.mem_append.mp h' with h' | h'
      · exact notify_not_mem_cache _ h'
      · exact notify_not_mem_del _ h'

/-- Witness for C10: one buffered message with both fields absent makes the
flush abort with no ack callback and no token signal. -/
theorem claim_C10_witness :
    (fun _ => (Except.ok 0 : Except Unit Nat))
        ((⟨[7], [[1]], [⟨none, none⟩],
          ⟨3, 1000, 5⟩⟩ : HandlerState Nat).completed_events) =
      Except.ok 0 ∧
    (⟨none, none⟩ : SqsMessage) ∈
      (⟨[7], [[1]], [⟨none, none⟩],
        ⟨3, 1000, 5⟩⟩ : HandlerState Nat).completed_messages ∧
    (∃ tr,
      ack_all (fun _ => (Except.ok 0 : Except Unit Nat))
          (fun _ => (Except.ok () : Except Unit Unit))
          (fun _ => Except.ok ⟨[], []⟩) true
          (⟨[7], [[1]], [⟨none, none⟩], ⟨3, 1000, 5⟩⟩ : HandlerState Nat) =
        FlushResult.panicked
          (⟨[7], [], [⟨none, none⟩], ⟨3, 1000, 5⟩⟩ : HandlerState Nat) tr ∧
      (∀ e ∈ tr, e.isAck = false) ∧ Event.notify ∉ tr) :=
  ⟨rfl, by decide,
    claim_C10 (fun _ => (Except.ok 0 : Except Unit Nat))
      (fun _ => (Except.ok () : Except Unit Unit))
      (fun _ => Except.ok ⟨[], []⟩) true
      (⟨[7], [[1]], [⟨none, none⟩], ⟨3, 1000, 5⟩⟩ : HandlerState Nat) 0
      ⟨none, none⟩ rfl rfl (by decide) (Or.inl rfl)⟩

end SqsLambda
